import Mathlib

/-!
Verification of the call/campaign metrics core of the callflow-pro
repository: a shallow embedding of the `Call` and `Campaign` mongoose
schemas' computed-field methods (their `pre('save')` middleware,
`updateStatus`, `calculateQualificationScore`, `updatePerformance`,
`isActive` and the `budgetUtilization`/`efficiency` virtuals), together
with theorems about the derived-metric contracts.

Modelling conventions:
* JavaScript numbers are modelled as `ℚ` (all the arithmetic in this core
  is exact: sums, differences, products and divisions of stored values);
  `Date` values are epoch milliseconds, modelled as `ℤ` (a JS `Date`
  stores an integral millisecond count).
* A schema field that may be `undefined` is an `Option`; JS comparisons
  against `undefined` (which are always false) and JS truthiness tests
  on numbers (`0` and `undefined` are falsy) are modelled by the `js*`
  helpers below.
* A JS division whose denominator is zero yields `Infinity`/`NaN`, which
  are not rationals: computations that can hit that case are modelled
  with `jsDiv`, returning `none` exactly when the denominator is zero.
* Fields of the two schemas that no method of this core reads or writes
  (identifiers, phone numbers, tracking/UTM data, tags, notes, …) are
  passive data and are left out of the embedding.
-/

/-- JS `x || 0` for a possibly-undefined number `x`: `undefined` and `0`
are falsy, so the result is `0` for both and `x` otherwise — numerically
the same as defaulting to `0`. -/
def jsOrZero (v : Option ℚ) : ℚ :=
  match v with
  | none => 0
  | some x => x

/-- JS truthiness of a possibly-undefined number: `undefined` and `0` are
falsy, every other number is truthy. -/
def jsTruthy (v : Option ℚ) : Bool :=
  match v with
  | none => false
  | some x => decide (x ≠ 0)

/-- JS `v >= n` for a possibly-undefined `v`: comparisons with
`undefined` are false. -/
def jsGE (v : Option ℚ) (n : ℚ) : Bool :=
  match v with
  | none => false
  | some x => decide (n ≤ x)

/-- JS `v > n` for a possibly-undefined `v`: comparisons with
`undefined` are false. -/
def jsGT (v : Option ℚ) (n : ℚ) : Bool :=
  match v with
  | none => false
  | some x => decide (n < x)

/-- JS division as a partial operation on rationals: `a / b` when
`b ≠ 0`, and `none` where JS would produce `Infinity`/`NaN`. -/
def jsDiv (a b : ℚ) : Option ℚ :=
  if b = 0 then none else some (a / b)

/-! ## The Call record (`callSchema`) -/

/-- `callSchema.status`: `enum: ['initiated', 'ringing', 'answered',
'completed', 'failed', 'no_answer', 'busy']`, default `'initiated'`. -/
inductive CallStatus where
  | initiated
  | ringing
  | answered
  | completed
  | failed
  | no_answer
  | busy
deriving DecidableEq, Repr

/-- `callSchema.timing`: the event timestamps (epoch ms, absent until the
corresponding status transition) and the two derived numbers, `duration`
and `waitTime` (both default `0`).  `initiatedAt` (default `Date.now`) is
read by nothing in this core and is omitted. -/
structure Timing where
  ringingAt : Option ℤ
  answeredAt : Option ℤ
  endedAt : Option ℤ
  duration : ℚ
  waitTime : ℚ
deriving DecidableEq, Repr

/-- `callSchema.quality`: only `score` (1–5, may be absent) is read by
this core. -/
structure QualityInfo where
  score : Option ℚ
deriving DecidableEq, Repr

/-- `callSchema.cost`: `perMinute` (required, min 0) and the derived
`total` (default 0). -/
structure CostInfo where
  perMinute : ℚ
  total : ℚ
deriving DecidableEq, Repr

/-- `callSchema.revenue`: `amount` (default 0). -/
structure RevenueInfo where
  amount : ℚ
deriving DecidableEq, Repr

/-- `callSchema.leadData.budget`: `min`/`max`, each possibly absent. -/
structure LeadBudget where
  min : Option ℚ
  max : Option ℚ
deriving DecidableEq, Repr

/-- `callSchema.leadData`: the derived qualification fields and the
budget sub-object (absent unless supplied externally). -/
structure LeadData where
  isQualified : Bool
  qualificationScore : Option ℕ
  budget : Option LeadBudget
deriving DecidableEq, Repr

/-- The Call record: the fields of `callSchema` this core computes
with. -/
structure Call where
  status : CallStatus
  timing : Timing
  quality : QualityInfo
  cost : CostInfo
  revenue : RevenueInfo
  leadData : LeadData
deriving DecidableEq, Repr

/-- A freshly created call record with the schema defaults: status
`initiated`, no event timestamps, `duration = waitTime = 0`,
`cost.total = 0`, `revenue.amount = 0`, no lead data.  `perMinute` is a
required field with no default, so it is a parameter. -/
def freshCall (perMinute : ℚ) : Call where
  status := .initiated
  timing := { ringingAt := none, answeredAt := none, endedAt := none,
              duration := 0, waitTime := 0 }
  quality := { score := none }
  cost := { perMinute := perMinute, total := 0 }
  revenue := { amount := 0 }
  leadData := { isQualified := false, qualificationScore := none, budget := none }

/-- `callSchema.methods.updateStatus(newStatus, timestamp)`: sets
`status` unconditionally and stamps the matching timing field
(`ringing` → `ringingAt`, `answered` → `answeredAt`, any terminal
status → `endedAt`; `initiated` matches no case of the `switch`). -/
def updateStatus (newStatus : CallStatus) (timestamp : ℤ) (c : Call) : Call :=
  let c' := { c with status := newStatus }
  match newStatus with
  | .ringing => { c' with timing := { c'.timing with ringingAt := some timestamp } }
  | .answered => { c' with timing := { c'.timing with answeredAt := some timestamp } }
  | .completed | .failed | .no_answer | .busy =>
      { c' with timing := { c'.timing with endedAt := some timestamp } }
  | .initiated => c'

/-- `callSchema.pre('save')`: recomputes `timing.duration` (when both
`answeredAt` and `endedAt` are set), then `timing.waitTime` (when both
`ringingAt` and `answeredAt` are set), then `cost.total` (when the — just
recomputed — duration and the per-minute rate are both positive).
`Math.floor((e - a) / 1000)` on integral milliseconds is flooring
integer division, `Int.fdiv`. -/
def callPreSave (c : Call) : Call :=
  let t1 :=
    match c.timing.answeredAt, c.timing.endedAt with
    | some a, some e => { c.timing with duration := (((e - a).fdiv 1000 : ℤ) : ℚ) }
    | _, _ => c.timing
  let t2 :=
    match t1.ringingAt, t1.answeredAt with
    | some r, some a => { t1 with waitTime := (((a - r).fdiv 1000 : ℤ) : ℚ) }
    | _, _ => t1
  let cost' :=
    if 0 < t2.duration ∧ 0 < c.cost.perMinute then
      { c.cost with total := t2.duration / 60 * c.cost.perMinute }
    else c.cost
  { c with timing := t2, cost := cost' }

/-- `callSchema.methods.calculateQualificationScore()`: sequential point
accumulation from 0 over duration tier, quality tier, revenue presence
and budget floor; stores `Math.min(score, 100)` and `score >= 70`, and
returns the raw accumulated score. -/
def calculateQualificationScore (c : Call) : Call × ℕ :=
  let score : ℕ := 0
  let score :=
    if (300 : ℚ) ≤ c.timing.duration then score + 25
    else if (180 : ℚ) ≤ c.timing.duration then score + 15
    else if (60 : ℚ) ≤ c.timing.duration then score + 10
    else score
  let score :=
    if jsGE c.quality.score 4 then score + 20
    else if jsGE c.quality.score 3 then score + 10
    else score
  let score := if 0 < c.revenue.amount then score + 30 else score
  let score :=
    match c.leadData.budget with
    | some b => if jsGT b.min 1000 then score + 15 else score
    | none => score
  ({ c with leadData := { c.leadData with
        qualificationScore := some (min score 100),
        isQualified := decide (70 ≤ score) } },
   score)

/-! ## Call status/timestamp event sequences -/

/-- The position of a status in the lifecycle order `initiated`,
`ringing`, `answered`, then the terminal states `completed`, `failed`,
`no_answer`, `busy`. -/
def statusRank : CallStatus → ℕ
  | .initiated => 0
  | .ringing => 1
  | .answered => 2
  | .completed | .failed | .no_answer | .busy => 3

/-- Whether a status is terminal (`completed`, `failed`, `no_answer`,
`busy`). -/
def isTerminal (s : CallStatus) : Bool :=
  match s with
  | .completed | .failed | .no_answer | .busy => true
  | _ => false

/-- Apply a sequence of `updateStatus(newStatus, timestamp)` calls, in
order. -/
def applyEvents (l : List (CallStatus × ℤ)) (c : Call) : Call :=
  l.foldl (fun c e => updateStatus e.1 e.2 c) c

/-- An event sequence that moves forward through the lifecycle: along
the sequence, status ranks and timestamps are both nondecreasing. -/
def ForwardSeq (l : List (CallStatus × ℤ)) : Prop :=
  List.Chain' (fun e f => statusRank e.1 ≤ statusRank f.1 ∧ e.2 ≤ f.2) l

instance : DecidablePred ForwardSeq := fun l =>
  inferInstanceAs (Decidable (List.Chain' _ l))

/-! ## The Campaign record (`campaignSchema`) -/

/-- `campaignSchema.status`: `enum: ['draft', 'active', 'paused',
'completed', 'cancelled']`, default `'draft'`. -/
inductive CampaignStatus where
  | draft
  | active
  | paused
  | completed
  | cancelled
deriving DecidableEq, Repr

/-- `campaignSchema.budget`: `daily` and `total` are required; `spent`
defaults to `0` and `remaining` defaults to `budget.total`. -/
structure Budget where
  daily : ℚ
  total : ℚ
  spent : ℚ
  remaining : ℚ
deriving DecidableEq, Repr

/-- `campaignSchema.performance`: the running counters, every one with
default `0`. -/
structure Performance where
  totalCalls : ℚ
  totalDuration : ℚ
  averageDuration : ℚ
  conversionRate : ℚ
  costPerCall : ℚ
  revenuePerCall : ℚ
  roi : ℚ
deriving DecidableEq, Repr

/-- `campaignSchema.schedule.activeHours`: 24-hour `"HH:MM"` strings,
defaults `"09:00"`/`"17:00"`.  `end` is a Lean keyword, so the field is
named `endTime`. -/
structure ActiveHours where
  start : String
  endTime : String
deriving DecidableEq, Repr

/-- `campaignSchema.schedule`: start/end dates (epoch ms), the active
hours window and the active-days set (lowercase weekday names).
`timeZone` is read by nothing in this core and is omitted. -/
structure Schedule where
  startDate : ℤ
  endDate : ℤ
  activeHours : ActiveHours
  activeDays : List String
deriving DecidableEq, Repr

/-- The Campaign record: the fields of `campaignSchema` this core
computes with. -/
structure Campaign where
  status : CampaignStatus
  budget : Budget
  performance : Performance
  schedule : Schedule
deriving DecidableEq, Repr

/-- A freshly created campaign with the schema defaults: status `draft`,
`spent = 0`, `remaining = total` (the schema's default function for
`budget.remaining` returns `this.budget.total`), all performance
counters `0`.  `daily`, `total` and the schedule are required fields
with no defaults, so they are parameters. -/
def freshCampaign (daily total : ℚ) (sched : Schedule) : Campaign where
  status := .draft
  budget := { daily := daily, total := total, spent := 0, remaining := total }
  performance := { totalCalls := 0, totalDuration := 0, averageDuration := 0,
                   conversionRate := 0, costPerCall := 0, revenuePerCall := 0,
                   roi := 0 }
  schedule := sched

/-- `campaignSchema.virtual('budgetUtilization')`: `spent / total * 100`
behind a `total > 0` guard, else `0`. -/
def budgetUtilization (c : Campaign) : Option ℚ :=
  if 0 < c.budget.total then
    (jsDiv c.budget.spent c.budget.total).map (· * 100)
  else some 0

/-- `campaignSchema.virtual('efficiency')`: `revenuePerCall /
costPerCall` behind a `totalCalls > 0` guard, else `0`.  The guard does
not test the denominator `costPerCall`. -/
def efficiency (c : Campaign) : Option ℚ :=
  if 0 < c.performance.totalCalls then
    jsDiv c.performance.revenuePerCall c.performance.costPerCall
  else some 0

/-- The `callData` argument of `updatePerformance`: a completed call's
outcome, each field possibly absent. -/
structure CallData where
  duration : Option ℚ
  cost : Option ℚ
  revenue : Option ℚ
deriving DecidableEq, Repr

/-- `campaignSchema.methods.updatePerformance(callData)`: increments
`totalCalls`, adds `callData.duration || 0` to `totalDuration`, derives
`averageDuration`; behind `if (callData.cost)` (truthiness) accrues
`budget.spent` and derives `costPerCall`; behind `if (callData.revenue)`
(truthiness) updates the incremental `revenuePerCall` average and the
`roi`.  The `roi` division `… / costPerCall` is written with rational
division (`x / 0 = 0` in `ℚ`); where its denominator is zero JS would
store `Infinity`/`NaN` instead — that case is detected separately by
`roiDenominatorZero`, and no theorem below reads `roi` at such a
state. -/
def updatePerformance (callData : CallData) (c : Campaign) : Campaign :=
  let totalCalls := c.performance.totalCalls + 1
  let totalDuration := c.performance.totalDuration + jsOrZero callData.duration
  let averageDuration := totalDuration / totalCalls
  let spent :=
    if jsTruthy callData.cost then c.budget.spent + jsOrZero callData.cost
    else c.budget.spent
  let costPerCall :=
    if jsTruthy callData.cost then spent / totalCalls
    else c.performance.costPerCall
  let revenuePerCall :=
    if jsTruthy callData.revenue then
      (c.performance.revenuePerCall * (totalCalls - 1) + jsOrZero callData.revenue)
        / totalCalls
    else c.performance.revenuePerCall
  let roi :=
    if jsTruthy callData.revenue then
      (revenuePerCall - costPerCall) / costPerCall * 100
    else c.performance.roi
  { c with
    budget := { c.budget with spent := spent },
    performance := { c.performance with
      totalCalls := totalCalls, totalDuration := totalDuration,
      averageDuration := averageDuration, costPerCall := costPerCall,
      revenuePerCall := revenuePerCall, roi := roi } }

/-- Whether the `roi` line of `updatePerformance(callData)` on campaign
`c` evaluates `(revenuePerCall - costPerCall) / costPerCall` with a zero
denominator (where JS produces `Infinity`/`NaN`): the revenue branch
runs and the — possibly just updated — `costPerCall` is zero. -/
def roiDenominatorZero (callData : CallData) (c : Campaign) : Bool :=
  jsTruthy callData.revenue &&
    decide ((if jsTruthy callData.cost then
              (c.budget.spent + jsOrZero callData.cost) / (c.performance.totalCalls + 1)
             else c.performance.costPerCall) = 0)

/-- `campaignSchema.pre('save')`: when `budget.spent` was modified,
recompute `budget.remaining = budget.total - budget.spent`.  The
`isModified('budget.spent')` flag is the boolean parameter. -/
def campaignPreSave (modifiedSpent : Bool) (c : Campaign) : Campaign :=
  if modifiedSpent then
    { c with budget := { c.budget with remaining := c.budget.total - c.budget.spent } }
  else c

/-- A direct mutation of `budget.spent` (the kind of write that makes
mongoose's `isModified('budget.spent')` true at the next save). -/
def setSpent (v : ℚ) (c : Campaign) : Campaign :=
  { c with budget := { c.budget with spent := v } }

/-- Folding a sequence of completed calls' outcomes into a campaign via
`updatePerformance`, in order. -/
def foldCalls (l : List CallData) (c : Campaign) : Campaign :=
  l.foldl (fun c d => updatePerformance d c) c

/-! ## `isActive` and the evaluation-time `Date` -/

/-- What `campaignSchema.methods.isActive` reads off `new Date()`: the
epoch instant, the `"HH:MM"` prefix of `toTimeString()`, and the
weekday name the `'en-US'` formatter would print for the valid
`weekday: 'long'` option. -/
structure JsDate where
  epochMs : ℤ
  timeOfDay : String
  weekdayLong : String
deriving DecidableEq, Repr

/-- The values ECMA-402 permits for the `weekday` option of
`toLocaleDateString`; any other value makes the call throw a
`RangeError` before any formatting happens. -/
def intlWeekdayValues : List String := ["narrow", "short", "long"]

/-- `now.toLocaleDateString('en-US', { weekday: opt })`, modelling only
what `isActive` depends on: the option value is validated against
`intlWeekdayValues` (an invalid value throws `RangeError`); the text a
valid option formats is abstracted as the date's weekday name. -/
def toLocaleWeekday (opt : String) (now : JsDate) : Except String String :=
  if opt ∈ intlWeekdayValues then Except.ok now.weekdayLong
  else Except.error "RangeError"

/-- `campaignSchema.methods.isActive()`: computes `currentTime` and
`currentDay` from `new Date()` and then tests status, date window,
weekday membership and the lexicographic `"HH:MM"` window.  The
`currentDay` computation passes `weekday: 'lowercase'` — not one of the
valid option values — so the `toLocaleDateString` call throws before
the conjunction is ever evaluated. -/
def isActive (c : Campaign) (now : JsDate) : Except String Bool :=
  let currentTime := now.timeOfDay
  match toLocaleWeekday "lowercase" now with
  | Except.error e => Except.error e
  | Except.ok currentDay =>
      Except.ok (decide (c.status = .active) &&
        decide (c.schedule.startDate ≤ now.epochMs) &&
        decide (now.epochMs ≤ c.schedule.endDate) &&
        c.schedule.activeDays.contains currentDay &&
        decide (c.schedule.activeHours.start ≤ currentTime) &&
        decide (currentTime ≤ c.schedule.activeHours.endTime))

/-! ## Reference definition of the qualification score (C1)

The spec's description of `calculateQualificationScore`, written as a
sum of four independent components rather than a sequential
accumulation, to be compared with the embedding of the source. -/

/-- Spec reference, duration tier: `≥ 300s → 25; else ≥ 180s → 15; else
`≥ 60s → 10; else 0` (mutually exclusive, highest tier wins). -/
def refDurationPoints (d : ℚ) : ℕ :=
  if 300 ≤ d then 25 else if 180 ≤ d then 15 else if 60 ≤ d then 10 else 0

/-- Spec reference, quality tier: `score ≥ 4 → 20; else ≥ 3 → 10; else
0`. -/
def refQualityPoints (q : Option ℚ) : ℕ :=
  if jsGE q 4 then 20 else if jsGE q 3 then 10 else 0

/-- Spec reference, revenue component: `amount > 0 → 30`. -/
def refRevenuePoints (amount : ℚ) : ℕ :=
  if 0 < amount then 30 else 0

/-- Spec reference, budget component: `leadData.budget.min > 1000 → 15`
(0 when the budget object or its minimum is absent). -/
def refBudgetPoints (b : Option LeadBudget) : ℕ :=
  match b with
  | some b => if jsGT b.min 1000 then 15 else 0
  | none => 0

/-- Spec reference, the raw qualification score: the sum of the four
components. -/
def refRawScore (c : Call) : ℕ :=
  refDurationPoints c.timing.duration + refQualityPoints c.quality.score +
    refRevenuePoints c.revenue.amount + refBudgetPoints c.leadData.budget

set_option maxHeartbeats 1600000 in
/-- The sequential accumulation of `calculateQualificationScore` equals
the componentwise reference score, and the returned record stores the
clamped score and the threshold flag. -/
lemma calcScore_eq (c : Call) :
    calculateQualificationScore c =
      ({ c with leadData := { c.leadData with
          qualificationScore := some (min (refRawScore c) 100),
          isQualified := decide (70 ≤ refRawScore c) } },
       refRawScore c) := by
  obtain ⟨st, tm, qu, co, re, ld⟩ := c
  obtain ⟨iq, qs, bu⟩ := ld
  simp only [calculateQualificationScore, refRawScore, refDurationPoints,
    refQualityPoints, refRevenuePoints, refBudgetPoints]
  rcases bu with _ | b <;> split_ifs <;> simp_arith <;>
    (try split_ifs) <;> simp_arith

/-- Each reference component is at most its top tier, so the raw score
is at most `25 + 20 + 30 + 15 = 90`. -/
lemma refRawScore_le_90 (c : Call) : refRawScore c ≤ 90 := by
  have h1 : refDurationPoints c.timing.duration ≤ 25 := by
    unfold refDurationPoints; split_ifs <;> omega
  have h2 : refQualityPoints c.quality.score ≤ 20 := by
    unfold refQualityPoints; split_ifs <;> omega
  have h3 : refRevenuePoints c.revenue.amount ≤ 30 := by
    unfold refRevenuePoints; split_ifs <;> omega
  have h4 : refBudgetPoints c.leadData.budget ≤ 15 := by
    unfold refBudgetPoints
    rcases c.leadData.budget with _ | b
    · exact Nat.zero_le _
    · show (if jsGT b.min 1000 = true then (15 : ℕ) else 0) ≤ 15
      split_ifs <;> omega
  unfold refRawScore; omega

/-- Claim C1: `calculateQualificationScore` matches the reference
definition on every call record state: the returned raw score is the sum
of the duration tier (25/15/10/0, highest tier only), the quality tier
(20/10/0), the revenue component (30/0) and the budget component (15/0);
the record comes back with `leadData.qualificationScore = min score 100`,
`leadData.isQualified = (score ≥ 70)`, and everything else unchanged. -/
theorem calculateQualificationScore_matches_reference (c : Call) :
    (calculateQualificationScore c).2 = refRawScore c ∧
    (calculateQualificationScore c).1 =
      { c with leadData := { c.leadData with
          qualificationScore := some (min (refRawScore c) 100),
          isQualified := decide (70 ≤ refRawScore c) } } := by
  rw [calcScore_eq]
  exact ⟨rfl, rfl⟩

/-- Claim C10: the raw score accumulated by
`calculateQualificationScore` is at most 90, so the `min … 100` clamp
never alters it: the stored `leadData.qualificationScore` equals the
returned raw score, and the stored `leadData.isQualified` flag holds
exactly when that stored score is at least 70. -/
theorem qualificationScore_raw_le_90 (c : Call) :
    (calculateQualificationScore c).2 ≤ 90 ∧
    (calculateQualificationScore c).1.leadData.qualificationScore =
      some (calculateQualificationScore c).2 ∧
    ((calculateQualificationScore c).1.leadData.isQualified = true ↔
      70 ≤ (calculateQualificationScore c).2) := by
  rw [calcScore_eq]
  have h90 := refRawScore_le_90 c
  refine ⟨h90, ?_, ?_⟩
  · simp only [Option.some.injEq]
    exact min_eq_left (by omega)
  · simp [decide_eq_true_iff]

/-! ## The pre-save recomputation (C2, C5) -/

/-- `callPreSave` leaves the three event timestamps unchanged. -/
lemma callPreSave_timestamps (c : Call) :
    (callPreSave c).timing.ringingAt = c.timing.ringingAt ∧
    (callPreSave c).timing.answeredAt = c.timing.answeredAt ∧
    (callPreSave c).timing.endedAt = c.timing.endedAt := by
  obtain ⟨st, ⟨rg, an, en, du, wt⟩, qu, co, re, ld⟩ := c
  rcases an with _ | a <;> rcases en with _ | e <;> rcases rg with _ | r <;>
    simp [callPreSave]

/-- The duration `callPreSave` stores: the floored difference when both
endpoints are set, the prior value otherwise. -/
lemma callPreSave_duration (c : Call) :
    (callPreSave c).timing.duration =
      match c.timing.answeredAt, c.timing.endedAt with
      | some a, some e => (((e - a).fdiv 1000 : ℤ) : ℚ)
      | _, _ => c.timing.duration := by
  obtain ⟨st, ⟨rg, an, en, du, wt⟩, qu, co, re, ld⟩ := c
  rcases an with _ | a <;> rcases en with _ | e <;> rcases rg with _ | r <;>
    simp [callPreSave]

/-- The wait time `callPreSave` stores: the floored difference when both
`ringingAt` and `answeredAt` are set, the prior value otherwise. -/
lemma callPreSave_waitTime (c : Call) :
    (callPreSave c).timing.waitTime =
      match c.timing.ringingAt, c.timing.answeredAt with
      | some r, some a => (((a - r).fdiv 1000 : ℤ) : ℚ)
      | _, _ => c.timing.waitTime := by
  obtain ⟨st, ⟨rg, an, en, du, wt⟩, qu, co, re, ld⟩ := c
  rcases an with _ | a <;> rcases en with _ | e <;> rcases rg with _ | r <;>
    simp [callPreSave]

/-- The total cost `callPreSave` stores: recomputed from the just-stored
duration and the rate when both are positive, the prior value
otherwise. -/
lemma callPreSave_total (c : Call) :
    (callPreSave c).cost.total =
      if 0 < (callPreSave c).timing.duration ∧ 0 < c.cost.perMinute then
        (callPreSave c).timing.duration / 60 * c.cost.perMinute
      else c.cost.total := by
  obtain ⟨st, ⟨rg, an, en, du, wt⟩, qu, co, re, ld⟩ := c
  rcases an with _ | a <;> rcases en with _ | e <;> rcases rg with _ | r <;>
    simp [callPreSave] <;> split_ifs <;> rfl

/-- `callPreSave` does not change `cost.perMinute`. -/
lemma callPreSave_perMinute (c : Call) :
    (callPreSave c).cost.perMinute = c.cost.perMinute := by
  obtain ⟨st, ⟨rg, an, en, du, wt⟩, qu, co, re, ld⟩ := c
  rcases an with _ | a <;> rcases en with _ | e <;> rcases rg with _ | r <;>
    simp [callPreSave] <;> split_ifs <;> rfl

/-- Claim C2: the pre-persist recomputation.  When both `answeredAt` and
`endedAt` are set, the stored duration is `floor((ended - answered) /
1000)`; when both `ringingAt` and `answeredAt` are set, the stored wait
time is `floor((answered - ringing) / 1000)`; when the recomputed
duration and `cost.perMinute` are both positive, the stored total cost
is `(duration / 60) * perMinute`; whenever a precondition fails the
corresponding field keeps its prior value (and the computation is total:
no error).  In particular, with `answeredAt = t0` and `endedAt = t0 +
125s`, the recomputed duration is `125` and, for a positive rate, the
total cost is `(125 / 60) * perMinute`. -/
theorem callPreSave_derived_field_contract :
    (∀ c : Call,
      (∀ a e, c.timing.answeredAt = some a → c.timing.endedAt = some e →
        (callPreSave c).timing.duration = (((e - a).fdiv 1000 : ℤ) : ℚ)) ∧
      ((c.timing.answeredAt = none ∨ c.timing.endedAt = none) →
        (callPreSave c).timing.duration = c.timing.duration) ∧
      (∀ r a, c.timing.ringingAt = some r → c.timing.answeredAt = some a →
        (callPreSave c).timing.waitTime = (((a - r).fdiv 1000 : ℤ) : ℚ)) ∧
      ((c.timing.ringingAt = none ∨ c.timing.answeredAt = none) →
        (callPreSave c).timing.waitTime = c.timing.waitTime) ∧
      (0 < (callPreSave c).timing.duration ∧ 0 < c.cost.perMinute →
        (callPreSave c).cost.total =
          (callPreSave c).timing.duration / 60 * c.cost.perMinute) ∧
      (¬(0 < (callPreSave c).timing.duration ∧ 0 < c.cost.perMinute) →
        (callPreSave c).cost.total = c.cost.total)) ∧
    (∀ (t0 : ℤ) (c : Call), 0 < c.cost.perMinute →
      c.timing.answeredAt = some t0 → c.timing.endedAt = some (t0 + 125000) →
      (callPreSave c).timing.duration = 125 ∧
      (callPreSave c).cost.total = 125 / 60 * c.cost.perMinute) := by
  have main : ∀ c : Call,
      (∀ a e, c.timing.answeredAt = some a → c.timing.endedAt = some e →
        (callPreSave c).timing.duration = (((e - a).fdiv 1000 : ℤ) : ℚ)) ∧
      ((c.timing.answeredAt = none ∨ c.timing.endedAt = none) →
        (callPreSave c).timing.duration = c.timing.duration) ∧
      (∀ r a, c.timing.ringingAt = some r → c.timing.answeredAt = some a →
        (callPreSave c).timing.waitTime = (((a - r).fdiv 1000 : ℤ) : ℚ)) ∧
      ((c.timing.ringingAt = none ∨ c.timing.answeredAt = none) →
        (callPreSave c).timing.waitTime = c.timing.waitTime) ∧
      (0 < (callPreSave c).timing.duration ∧ 0 < c.cost.perMinute →
        (callPreSave c).cost.total =
          (callPreSave c).timing.duration / 60 * c.cost.perMinute) ∧
      (¬(0 < (callPreSave c).timing.duration ∧ 0 < c.cost.perMinute) →
        (callPreSave c).cost.total = c.cost.total) := by
    intro c
    refine ⟨?_, ?_, ?_, ?_, ?_, ?_⟩
    · intro a e ha he; rw [callPreSave_duration, ha, he]
    · intro h; rw [callPreSave_duration]
      rcases h with h | h <;> rw [h] <;>
        rcases c.timing.answeredAt with _ | a <;>
        rcases c.timing.endedAt with _ | e <;> rfl
    · intro r a hr ha; rw [callPreSave_waitTime, hr, ha]
    · intro h; rw [callPreSave_waitTime]
      rcases h with h | h <;> rw [h] <;>
        rcases c.timing.ringingAt with _ | r <;>
        rcases c.timing.answeredAt with _ | a <;> rfl
    · intro h; rw [callPreSave_total, if_pos h]
    · intro h; rw [callPreSave_total, if_neg h]
  refine ⟨main, ?_⟩
  intro t0 c hpm ha he
  have hd : (callPreSave c).timing.duration = 125 := by
    rw [(main c).1 t0 (t0 + 125000) ha he]
    have h125 : t0 + 125000 - t0 = (125000 : ℤ) := by ring
    rw [h125]
    have hfd : (125000 : ℤ).fdiv 1000 = 125 := by decide
    rw [hfd]
    norm_num
  refine ⟨hd, ?_⟩
  have := (main c).2.2.2.2.1 ⟨by rw [hd]; norm_num, hpm⟩
  rw [hd] at this
  exact this

/-- `updateStatus` never touches the derived `timing.duration` field. -/
lemma updateStatus_duration (s : CallStatus) (t : ℤ) (c : Call) :
    (updateStatus s t c).timing.duration = c.timing.duration := by
  cases s <;> rfl

/-- Applying any event sequence leaves `timing.duration` unchanged (the
duration is only recomputed by `callPreSave`). -/
lemma applyEvents_duration (l : List (CallStatus × ℤ)) (c : Call) :
    (applyEvents l c).timing.duration = c.timing.duration := by
  induction l generalizing c with
  | nil => rfl
  | cons e l ih =>
      rw [applyEvents, List.foldl_cons, ← applyEvents, ih, updateStatus_duration]

/-- The state invariant carried along a forward event sequence: `r` and
`t` bound the rank and timestamp of the last processed event.  Stored
timestamps are no later than `t`; `endedAt` is only set once a terminal
(rank-3) event has been processed; and `answeredAt ≤ endedAt` whenever
both are set. -/
def GoodCall (c : Call) (r : ℕ) (t : ℤ) : Prop :=
  (∀ a ∈ c.timing.answeredAt, a ≤ t) ∧
  (∀ e ∈ c.timing.endedAt, e ≤ t ∧ 3 ≤ r) ∧
  (∀ a ∈ c.timing.answeredAt, ∀ e ∈ c.timing.endedAt, a ≤ e)

/-- One forward step preserves the invariant. -/
lemma goodCall_step (c : Call) (r : ℕ) (t : ℤ) (s : CallStatus) (u : ℤ)
    (h : GoodCall c r t) (hr : r ≤ statusRank s) (ht : t ≤ u) :
    GoodCall (updateStatus s u c) (statusRank s) u := by
  obtain ⟨hans, hend, hle⟩ := h
  cases s <;>
    simp only [updateStatus, GoodCall, statusRank] at *
  case initiated =>
    exact ⟨fun a ha => le_trans (hans a ha) ht,
           fun e he => absurd (le_trans (hend e he).2 hr) (by omega),
           hle⟩
  case ringing =>
    exact ⟨fun a ha => le_trans (hans a ha) ht,
           fun e he => absurd (le_trans (hend e he).2 hr) (by omega),
           hle⟩
  case answered =>
    refine ⟨fun a ha => by simp at ha; omega,
            fun e he => absurd (le_trans (hend e he).2 hr) (by omega),
            fun a ha e he => absurd (le_trans (hend e he).2 hr) (by omega)⟩
  case completed =>
    refine ⟨fun a ha => le_trans (hans a ha) ht,
            fun e he => by simp at he; omega,
            fun a ha e he => by simp at he; exact he ▸ le_trans (hans a ha) ht⟩
  case failed =>
    refine ⟨fun a ha => le_trans (hans a ha) ht,
            fun e he => by simp at he; omega,
            fun a ha e he => by simp at he; exact he ▸ le_trans (hans a ha) ht⟩
  case no_answer =>
    refine ⟨fun a ha => le_trans (hans a ha) ht,
            fun e he => by simp at he; omega,
            fun a ha e he => by simp at he; exact he ▸ le_trans (hans a ha) ht⟩
  case busy =>
    refine ⟨fun a ha => le_trans (hans a ha) ht,
            fun e he => by simp at he; omega,
            fun a ha e he => by simp at he; exact he ▸ le_trans (hans a ha) ht⟩

/-- Folding a forward event sequence whose first event dominates the
carried bounds preserves the invariant (for some final bounds). -/
lemma goodCall_fold (l : List (CallStatus × ℤ)) :
    ∀ (c : Call) (r : ℕ) (t : ℤ), GoodCall c r t →
      (∀ e ∈ l.head?, r ≤ statusRank e.1 ∧ t ≤ e.2) → ForwardSeq l →
      ∃ r' t', GoodCall (applyEvents l c) r' t' := by
  induction l with
  | nil => intro c r t h _ _; exact ⟨r, t, h⟩
  | cons e l ih =>
      intro c r t h hhead hfwd
      have he : r ≤ statusRank e.1 ∧ t ≤ e.2 := hhead e rfl
      have hstep := goodCall_step c r t e.1 e.2 h he.1 he.2
      rw [ForwardSeq, List.chain'_cons'] at hfwd
      rw [applyEvents, List.foldl_cons, ← applyEvents]
      exact ih (updateStatus e.1 e.2 c) (statusRank e.1) e.2 hstep
        (fun f hf => hfwd.1 f hf) hfwd.2

/-- Along a forward event sequence from a fresh record, `answeredAt` is
never later than `endedAt` when both are set. -/
lemma applyEvents_ans_le_end (pm : ℚ) (l : List (CallStatus × ℤ))
    (h : ForwardSeq l) :
    ∀ a ∈ (applyEvents l (freshCall pm)).timing.answeredAt,
      ∀ e ∈ (applyEvents l (freshCall pm)).timing.endedAt, a ≤ e := by
  rcases l with _ | ⟨ev, l⟩
  · intro a ha; simp [applyEvents, freshCall] at ha
  · have hfresh : GoodCall (freshCall pm) 0 ev.2 := by
      refine ⟨?_, ?_, ?_⟩ <;> intro x hx <;> simp [freshCall] at hx
    obtain ⟨r', t', hg⟩ := goodCall_fold (ev :: l) (freshCall pm) 0 ev.2 hfresh
      (fun f hf => by simp at hf; subst hf; exact ⟨Nat.zero_le _, le_refl _⟩) h
    exact hg.2.2

/-- Claim C5 (amended): for every forward event sequence — statuses move
through the lifecycle order and timestamps are nondecreasing — applied
to a fresh record and followed by the pre-persist recomputation, the
stored duration is non-negative; and the duration is zero whenever
`answeredAt` or `endedAt` is absent. -/
theorem duration_nonneg_along_forward_sequences (pm : ℚ)
    (l : List (CallStatus × ℤ)) (h : ForwardSeq l) :
    0 ≤ (callPreSave (applyEvents l (freshCall pm))).timing.duration ∧
    ((applyEvents l (freshCall pm)).timing.answeredAt = none ∨
      (applyEvents l (freshCall pm)).timing.endedAt = none →
      (callPreSave (applyEvents l (freshCall pm))).timing.duration = 0) := by
  have hdur := callPreSave_duration (applyEvents l (freshCall pm))
  rcases han : (applyEvents l (freshCall pm)).timing.answeredAt with _ | a
  · rw [han] at hdur
    have hd0 : (callPreSave (applyEvents l (freshCall pm))).timing.duration = 0 := by
      rw [hdur]
      rcases (applyEvents l (freshCall pm)).timing.endedAt with _ | e <;>
        simp [applyEvents_duration, freshCall]
    exact ⟨by rw [hd0], fun _ => hd0⟩
  · rcases hen : (applyEvents l (freshCall pm)).timing.endedAt with _ | e
    · rw [han, hen] at hdur
      have hd0 : (callPreSave (applyEvents l (freshCall pm))).timing.duration = 0 := by
        rw [hdur, applyEvents_duration]
        simp [freshCall]
      exact ⟨by rw [hd0], fun _ => hd0⟩
    · simp only [han, hen] at hdur
      have hae : a ≤ e :=
        applyEvents_ans_le_end pm l h a han e hen
      have hnn : (0 : ℤ) ≤ (e - a).fdiv 1000 :=
        Int.fdiv_nonneg (by omega) (by omega)
      refine ⟨?_, ?_⟩
      · rw [hdur]
        exact_mod_cast hnn
      · intro habs
        rcases habs with habs | habs
        · simp [han] at habs
        · simp [hen] at habs

/-- Witness for the forward-sequence duration theorem at the concrete
sequence ringing@1s, answered@5s, completed@130s (rate 2): the stored
duration is non-negative. -/
theorem duration_nonneg_witness :
    0 ≤ (callPreSave (applyEvents
        [(CallStatus.ringing, 1000), (CallStatus.answered, 5000),
         (CallStatus.completed, 130000)] (freshCall 2))).timing.duration ∧
    ((applyEvents [(CallStatus.ringing, 1000), (CallStatus.answered, 5000),
         (CallStatus.completed, 130000)] (freshCall 2)).timing.answeredAt = none ∨
      (applyEvents [(CallStatus.ringing, 1000), (CallStatus.answered, 5000),
         (CallStatus.completed, 130000)] (freshCall 2)).timing.endedAt = none →
      (callPreSave (applyEvents
        [(CallStatus.ringing, 1000), (CallStatus.answered, 5000),
         (CallStatus.completed, 130000)] (freshCall 2))).timing.duration = 0) :=
  duration_nonneg_along_forward_sequences 2
    [(CallStatus.ringing, 1000), (CallStatus.answered, 5000),
     (CallStatus.completed, 130000)]
    (by simp [ForwardSeq, List.chain'_cons, statusRank])

/-- Counterexample to claim C5 as stated: `updateStatus` accepts
arbitrary statuses and timestamps, so answering at 2s and completing at
0s is accepted, and the subsequent pre-persist recomputation stores the
negative duration `floor((0 - 2000) / 1000) = -2`. -/
theorem duration_negative_counterexample :
    (callPreSave (applyEvents
        [(CallStatus.answered, 2000), (CallStatus.completed, 0)]
        (freshCall 1))).timing.duration < 0 := by
  decide

/-- Claim C6 (amended): `updateStatus` performs no transition
validation: it sets the status unconditionally to its argument, for
every record, status and timestamp — so monotonicity holds only for
call sequences that are themselves forward-ordered, not as a property
of the step itself. -/
theorem updateStatus_sets_status_unconditionally
    (s : CallStatus) (t : ℤ) (c : Call) :
    (updateStatus s t c).status = s := by
  cases s <;> rfl

/-- Counterexample to claim C6 as stated: a record in the terminal
status `completed` moves back to the earlier non-terminal status
`ringing` by a subsequent `updateStatus` call. -/
theorem terminal_status_transitions_backward :
    ({ freshCall 1 with status := CallStatus.completed } : Call).status =
      CallStatus.completed ∧
    isTerminal CallStatus.completed = true ∧
    (updateStatus CallStatus.ringing 0
        { freshCall 1 with status := CallStatus.completed }).status =
      CallStatus.ringing ∧
    isTerminal CallStatus.ringing = false ∧
    statusRank CallStatus.ringing < statusRank CallStatus.completed := by
  decide

/-! ## Campaign theorems -/

/-- A concrete schedule for instantiating campaigns in examples: one
day, the default 09:00–17:00 window, weekdays. -/
def sched0 : Schedule where
  startDate := 0
  endDate := 86400000
  activeHours := { start := "09:00", endTime := "17:00" }
  activeDays := ["monday", "tuesday", "wednesday", "thursday", "friday"]

/-- Claim C8: after any mutation of `budget.spent` followed by the
campaign's pre-save invariant-maintenance step, `budget.remaining`
equals `budget.total - budget.spent`; the maintenance step changes no
field other than `budget.remaining`. -/
theorem budget_remaining_restored_after_save (c : Campaign) (v : ℚ) :
    (campaignPreSave true (setSpent v c)).budget.remaining =
      (campaignPreSave true (setSpent v c)).budget.total -
        (campaignPreSave true (setSpent v c)).budget.spent ∧
    (campaignPreSave true (setSpent v c)).budget.remaining =
      c.budget.total - v ∧
    (campaignPreSave true (setSpent v c)).budget.spent = v ∧
    (∀ c' : Campaign,
      (campaignPreSave true c').budget.total = c'.budget.total ∧
      (campaignPreSave true c').budget.daily = c'.budget.daily ∧
      (campaignPreSave true c').budget.spent = c'.budget.spent ∧
      (campaignPreSave true c').performance = c'.performance ∧
      (campaignPreSave true c').status = c'.status ∧
      (campaignPreSave true c').schedule = c'.schedule) := by
  refine ⟨rfl, rfl, rfl, fun c' => ⟨rfl, rfl, rfl, rfl, rfl, rfl⟩⟩

/-- Claim C9 (the code slip): `isActive` never returns a boolean at
all — for every campaign and every evaluation time, the
`toLocaleDateString('en-US', { weekday: 'lowercase' })` call throws a
`RangeError` (`'lowercase'` is not one of the valid ECMA-402 `weekday`
option values `narrow`/`short`/`long`), so in particular `isActive`
does not return `false` for a paused campaign: it throws before any
condition of the conjunction is evaluated. -/
theorem isActive_always_throws_rangeError (c : Campaign) (now : JsDate) :
    isActive c now = Except.error "RangeError" := rfl

/-- Claim C7 (amended): of the three guarded ratios, only
`budgetUtilization` is guarded by a positivity test on its own
denominator and never evaluates a division by zero; `efficiency`
divides by `costPerCall` under a guard on `totalCalls`, and hits a zero
denominator exactly on states with `totalCalls > 0` and
`costPerCall = 0`. -/
theorem budgetUtilization_never_divides_by_zero (c : Campaign) :
    (budgetUtilization c).isSome = true ∧
    (efficiency c = none ↔
      0 < c.performance.totalCalls ∧ c.performance.costPerCall = 0) := by
  constructor
  · unfold budgetUtilization jsDiv
    split_ifs with h1 h2
    · exact absurd h2 (ne_of_gt h1)
    · rfl
    · rfl
  · unfold efficiency jsDiv
    split_ifs with h1 h2
    · simp [h1, h2]
    · simp [h1, h2]
    · simp [h1]

/-- Counterexample to claim C7 as stated: a reachable state — one call
with revenue and no cost folded into a fresh campaign — has
`totalCalls = 1 > 0` and `costPerCall = 0`, so the `efficiency` virtual
evaluates `revenuePerCall / 0`; and on that same fold the `roi` line
itself divides by the zero `costPerCall`. -/
theorem efficiency_division_by_zero_reachable :
    efficiency (updatePerformance ⟨none, none, some 5⟩
        (freshCampaign 100 1000 sched0)) = none ∧
    roiDenominatorZero ⟨none, none, some 5⟩
        (freshCampaign 100 1000 sched0) = true := by
  norm_num [efficiency, updatePerformance, freshCampaign, roiDenominatorZero,
    jsDiv, jsTruthy, jsOrZero]

/-- Claim C3 (amended): folding a call outcome into a campaign
increments `totalCalls`, adds the duration (defaulted to 0) to
`totalDuration` and re-derives `averageDuration`; when a nonzero cost
is provided (the source guards with JS truthiness, so a zero cost is
skipped) it adds the cost to `budget.spent` and re-derives
`costPerCall`, and when the cost is absent or zero it leaves `spent`
and `costPerCall` unchanged.  Consequently three calls of durations
60/120/180 with no cost or revenue folded into a fresh campaign yield
`totalCalls = 3`, `totalDuration = 360`, `averageDuration = 120`; and
three calls costing 20 each folded into a fresh campaign yield
`spent = 60` and `costPerCall = 20`. -/
theorem updatePerformance_fold_contract :
    (∀ (c : Campaign) (d : CallData),
      (updatePerformance d c).performance.totalCalls =
        c.performance.totalCalls + 1 ∧
      (updatePerformance d c).performance.totalDuration =
        c.performance.totalDuration + jsOrZero d.duration ∧
      (updatePerformance d c).performance.averageDuration =
        (updatePerformance d c).performance.totalDuration /
          (updatePerformance d c).performance.totalCalls ∧
      (jsTruthy d.cost = true →
        (updatePerformance d c).budget.spent =
          c.budget.spent + jsOrZero d.cost ∧
        (updatePerformance d c).performance.costPerCall =
          (updatePerformance d c).budget.spent /
            (updatePerformance d c).performance.totalCalls) ∧
      (jsTruthy d.cost = false →
        (updatePerformance d c).budget.spent = c.budget.spent ∧
        (updatePerformance d c).performance.costPerCall =
          c.performance.costPerCall)) ∧
    ((foldCalls [⟨some 60, none, none⟩, ⟨some 120, none, none⟩,
        ⟨some 180, none, none⟩] (freshCampaign 100 1000 sched0)).performance.totalCalls = 3 ∧
      (foldCalls [⟨some 60, none, none⟩, ⟨some 120, none, none⟩,
        ⟨some 180, none, none⟩] (freshCampaign 100 1000 sched0)).performance.totalDuration = 360 ∧
      (foldCalls [⟨some 60, none, none⟩, ⟨some 120, none, none⟩,
        ⟨some 180, none, none⟩] (freshCampaign 100 1000 sched0)).performance.averageDuration = 120) ∧
    ((foldCalls [⟨none, some 20, none⟩, ⟨none, some 20, none⟩,
        ⟨none, some 20, none⟩] (freshCampaign 100 1000 sched0)).budget.spent = 60 ∧
      (foldCalls [⟨none, some 20, none⟩, ⟨none, some 20, none⟩,
        ⟨none, some 20, none⟩] (freshCampaign 100 1000 sched0)).performance.costPerCall = 20) := by
  refine ⟨fun c d => ⟨rfl, rfl, rfl, fun ht => ?_, fun ht => ?_⟩, ?_, ?_⟩
  · constructor <;> simp [updatePerformance, ht]
  · constructor <;> simp [updatePerformance, ht]
  · norm_num [foldCalls, updatePerformance, freshCampaign, jsTruthy, jsOrZero]
  · norm_num [foldCalls, updatePerformance, freshCampaign, jsTruthy, jsOrZero]

/-- Counterexample to claim C3 as stated: a provided cost of `0` is
falsy in JS, so the cost branch is skipped.  After one call costing 20
and a second call with cost `some 0` folded into a fresh campaign,
`costPerCall` stays `20` while `budget.spent / totalCalls = 10`: the
clause "when cost is provided, costPerCall = spent / totalCalls" fails
at cost `some 0`. -/
theorem updatePerformance_zero_cost_counterexample :
    (updatePerformance ⟨none, some 0, none⟩
        (updatePerformance ⟨none, some 20, none⟩
          (freshCampaign 100 1000 sched0))).performance.costPerCall = 20 ∧
    (updatePerformance ⟨none, some 0, none⟩
        (updatePerformance ⟨none, some 20, none⟩
          (freshCampaign 100 1000 sched0))).budget.spent /
      (updatePerformance ⟨none, some 0, none⟩
        (updatePerformance ⟨none, some 20, none⟩
          (freshCampaign 100 1000 sched0))).performance.totalCalls = 10 ∧
    (updatePerformance ⟨none, some 0, none⟩
        (updatePerformance ⟨none, some 20, none⟩
          (freshCampaign 100 1000 sched0))).performance.costPerCall ≠
      (updatePerformance ⟨none, some 0, none⟩
        (updatePerformance ⟨none, some 20, none⟩
          (freshCampaign 100 1000 sched0))).budget.spent /
        (updatePerformance ⟨none, some 0, none⟩
          (updatePerformance ⟨none, some 20, none⟩
            (freshCampaign 100 1000 sched0))).performance.totalCalls := by
  norm_num [updatePerformance, freshCampaign, jsTruthy, jsOrZero]

/-- Folding adds one to `totalCalls` per call. -/
lemma foldCalls_totalCalls (l : List CallData) (c : Campaign) :
    (foldCalls l c).performance.totalCalls =
      c.performance.totalCalls + l.length := by
  induction l generalizing c with
  | nil => simp [foldCalls]
  | cons d l ih =>
      rw [foldCalls, List.foldl_cons, ← foldCalls, ih]
      show c.performance.totalCalls + 1 + (l.length : ℚ) = _
      simp only [List.length_cons]
      push_cast
      ring

/-- The incremental `revenuePerCall` update in product form: when every
folded call provides a (truthy) revenue, the running average times the
running call count equals the prior product plus the folded revenues. -/
lemma foldCalls_revenue_product (l : List CallData) :
    ∀ (c : Campaign) (n : ℕ), (∀ d ∈ l, jsTruthy d.revenue = true) →
      c.performance.totalCalls = (n : ℚ) →
      (foldCalls l c).performance.revenuePerCall * ((n : ℚ) + l.length) =
        c.performance.revenuePerCall * (n : ℚ) +
          (l.map fun d => jsOrZero d.revenue).sum := by
  induction l with
  | nil => intro c n _ _; simp [foldCalls]
  | cons d l ih =>
      intro c n hrev hn
      have hd : jsTruthy d.revenue = true := hrev d (List.mem_cons_self d l)
      have hrev' : ∀ x ∈ l, jsTruthy x.revenue = true :=
        fun x hx => hrev x (List.mem_cons_of_mem d hx)
      have hn1 : (updatePerformance d c).performance.totalCalls = ((n + 1 : ℕ) : ℚ) := by
        show c.performance.totalCalls + 1 = ((n + 1 : ℕ) : ℚ)
        rw [hn]; push_cast; ring
      have hne : ((n : ℚ) + 1) ≠ 0 := by positivity
      have hrpc : (updatePerformance d c).performance.revenuePerCall * ((n : ℚ) + 1) =
          c.performance.revenuePerCall * (n : ℚ) + jsOrZero d.revenue := by
        show (if jsTruthy d.revenue = true then
                (c.performance.revenuePerCall * (c.performance.totalCalls + 1 - 1) +
                  jsOrZero d.revenue) / (c.performance.totalCalls + 1)
              else c.performance.revenuePerCall) * ((n : ℚ) + 1) = _
        rw [if_pos hd, hn]
        field_simp
      rw [foldCalls, List.foldl_cons, ← foldCalls]
      have key := ih (updatePerformance d c) (n + 1) hrev' hn1
      push_cast at key
      simp only [List.length_cons, List.map_cons, List.sum_cons]
      push_cast
      have harr : (n : ℚ) + ((l.length : ℚ) + 1) = ((n : ℚ) + 1) + (l.length : ℚ) := by
        ring
      rw [harr, key, hrpc]
      ring

/-- Claim C4 (amended): for every sequence of calls, each providing a
nonzero revenue, folded into a fresh campaign via `updatePerformance`
in exact arithmetic, the resulting `revenuePerCall` equals the sum of
the folded revenues divided by the resulting `totalCalls` (the
incremental weighted-average formula refines the
store-raw-sums-and-derive-on-read implementation).  The restriction is
forced by the source's truthiness guard: a call with absent or zero
revenue still increments `totalCalls` but leaves `revenuePerCall`
unchanged. -/
theorem revenuePerCall_refines_sum_over_calls (daily total : ℚ)
    (sched : Schedule) (l : List CallData)
    (h : ∀ d ∈ l, jsTruthy d.revenue = true) :
    (foldCalls l (freshCampaign daily total sched)).performance.revenuePerCall =
      (l.map fun d => jsOrZero d.revenue).sum /
        (foldCalls l (freshCampaign daily total sched)).performance.totalCalls := by
  have htc := foldCalls_totalCalls l (freshCampaign daily total sched)
  have h0 : (freshCampaign daily total sched).performance.totalCalls = ((0 : ℕ) : ℚ) := by
    simp [freshCampaign]
  have hprod := foldCalls_revenue_product l (freshCampaign daily total sched) 0 h h0
  rcases l with _ | ⟨d, l⟩
  · simp [foldCalls, freshCampaign]
  · have hlen : ((0 : ℕ) : ℚ) + ((d :: l).length : ℚ) = ((d :: l).length : ℚ) := by
      push_cast; ring
    have hne : (((d :: l).length : ℚ)) ≠ 0 := by
      simp only [List.length_cons]
      push_cast
      positivity
    rw [htc, h0]
    rw [hlen] at hprod
    rw [Nat.cast_zero, zero_add]
    rw [eq_div_iff hne]
    rw [hprod]
    simp [freshCampaign]

/-- Witness for the revenue refinement at a concrete sequence: folding
revenues 100 and 50 into a fresh campaign yields `revenuePerCall =
(100 + 50) / 2`. -/
theorem revenuePerCall_refines_sum_witness :
    (foldCalls [⟨none, none, some 100⟩, ⟨none, none, some 50⟩]
        (freshCampaign 100 1000 sched0)).performance.revenuePerCall =
      (([⟨none, none, some 100⟩, ⟨none, none, some 50⟩] : List CallData).map
          fun d => jsOrZero d.revenue).sum /
        (foldCalls [⟨none, none, some 100⟩, ⟨none, none, some 50⟩]
          (freshCampaign 100 1000 sched0)).performance.totalCalls :=
  revenuePerCall_refines_sum_over_calls 100 1000 sched0
    [⟨none, none, some 100⟩, ⟨none, none, some 50⟩] (by decide)

/-- Counterexample to claim C4 as stated: a call without revenue is
skipped by the truthiness guard but still counted in `totalCalls`.
After folding a call with revenue 100 and then a call with no revenue
into a fresh campaign, the stored `revenuePerCall` is 100 while the sum
of the folded revenues divided by the resulting `totalCalls` is
`100 / 2 = 50`. -/
theorem revenuePerCall_not_sum_counterexample :
    (foldCalls [⟨none, none, some 100⟩, ⟨none, none, none⟩]
        (freshCampaign 100 1000 sched0)).performance.revenuePerCall = 100 ∧
    (([⟨none, none, some 100⟩, ⟨none, none, none⟩] : List CallData).map
          fun d => jsOrZero d.revenue).sum /
        (foldCalls [⟨none, none, some 100⟩, ⟨none, none, none⟩]
          (freshCampaign 100 1000 sched0)).performance.totalCalls = 50 ∧
    (foldCalls [⟨none, none, some 100⟩, ⟨none, none, none⟩]
        (freshCampaign 100 1000 sched0)).performance.revenuePerCall ≠
      (([⟨none, none, some 100⟩, ⟨none, none, none⟩] : List CallData).map
          fun d => jsOrZero d.revenue).sum /
        (foldCalls [⟨none, none, some 100⟩, ⟨none, none, none⟩]
          (freshCampaign 100 1000 sched0)).performance.totalCalls := by
  norm_num [foldCalls, updatePerformance, freshCampaign, jsTruthy, jsOrZero]
